import Mathlib

/-!
Shallow embedding of `lsf_runner/lsf_runner.py`: the job status poller
(`Job.check_status`, `Job.wait_complete`), the bsub acknowledgement parser
(`retrieve_bsub_job_id`), the resource/GPU renderers
(`GpuParameters`, `resource_requirements`) and the submission encoder
(`run_job`) together with the resubmission orchestrator
(`__run_bsub_command`).

External effects are made explicit: status queries are driven by a script
of observations, sleeps are recorded as trace events, and the outcome of
each external process invocation is an input to the embedded function.
-/

/-- A dynamically typed Python value as returned by `Job.check_status`:
either a `str`, a `bytes` object (from `CalledProcessError.stdout`), or
some other object (a non-string JSON value). -/
inductive PyVal where
  | str (s : String)
  | bytes (s : String)
  | obj (repr : String)
deriving DecidableEq, Repr

/-- Python equality test `v == lit` between a dynamic value and a string
literal: `bytes` and other objects never compare equal to a `str`. -/
def PyVal.eqStr : PyVal → String → Bool
  | .str s, t => s = t
  | .bytes _, _ => false
  | .obj _, _ => false

/-- Observable events of the waiting protocol: sleeps (with their duration
in seconds, as passed to `time.sleep`) and status queries (with the value
the query returned). -/
inductive Event where
  | sleep (duration : Rat)
  | query (result : PyVal)
deriving DecidableEq, Repr

/-- The polling loop of `Job.wait_complete`, lines 56-68 of
`lsf_runner.py`, driven by the script of status observations: each query
consumes one observation.

`while (st := self.check_status()) != 'DONE' and st != 'EXIT': ...
time.sleep(check_period)` followed by the EXIT grace-period re-check; when
the re-check is no longer EXIT the code performs `return
self.wait_complete()`, i.e. a fresh run with the DEFAULT periods 10 and
30.  Returns `none` when the script is exhausted before the protocol
finishes, otherwise the returned status together with the trace of sleeps
and queries performed. -/
def Job.waitLoop : List PyVal → Rat → Rat → Option (PyVal × List Event)
  | [], _, _ => none
  | st :: rest, check_period, exit_wait_period =>
    if !(PyVal.eqStr st "DONE") && !(PyVal.eqStr st "EXIT") then
      (Job.waitLoop rest check_period exit_wait_period).map fun p =>
        (p.1, Event.query st :: Event.sleep check_period :: p.2)
    else if PyVal.eqStr st "EXIT" then
      match rest with
      | [] => none
      | st2 :: rest2 =>
        if PyVal.eqStr st2 "EXIT" then
          some (st2, [Event.query st, Event.sleep exit_wait_period, Event.query st2])
        else
          (Job.waitLoop rest2 10 30).map fun p =>
            (p.1, Event.query st :: Event.sleep exit_wait_period :: Event.query st2 ::
              Event.sleep 10 :: p.2)
    else
      some (st, [Event.query st])

/-- `Job.wait_complete(check_period, exit_wait_period)`: sleeps
`check_period` once before the first query, then runs the polling loop. -/
def Job.wait_complete (script : List PyVal) (check_period exit_wait_period : Rat) :
    Option (PyVal × List Event) :=
  (Job.waitLoop script check_period exit_wait_period).map fun p =>
    (p.1, Event.sleep check_period :: p.2)

/-- A JSON value as produced by `json.loads`. -/
inductive Json where
  | str (s : String)
  | num (n : Int)
  | bool (b : Bool)
  | null
  | arr (elems : List Json)
  | obj (fields : List (String × Json))

/-- Python subscript `j[key]` with a string key: succeeds only on an
object that has the key; the error string stands for the raised
exception rendered by `str(e)`. -/
def Json.index : Json → String → Except String Json
  | .obj fields, key =>
    match fields.lookup key with
    | some v => Except.ok v
    | none => Except.error ("KeyError: " ++ key)
  | _, key => Except.error ("TypeError: invalid key " ++ key)

/-- Python subscript `j[i]` with an integer index on a JSON value. -/
def Json.indexNat : Json → Nat → Except String Json
  | .arr elems, i =>
    match elems.get? i with
    | some v => Except.ok v
    | none => Except.error "IndexError: list index out of range"
  | _, _ => Except.error "TypeError: not indexable"

/-- `job_status_json['RECORDS'][0]['STAT']` of `Job.check_status`:
the chain of subscripts on the parsed JSON body; the final value is
returned as a Python value (a `str` when it is a JSON string). -/
def extractStat (body : Json) : Except String PyVal := do
  let records ← body.index "RECORDS"
  let first ← records.indexNat 0
  let stat ← first.index "STAT"
  return (match stat with
    | .str s => PyVal.str s
    | .num n => PyVal.obj (toString n)
    | .bool b => PyVal.obj (toString b)
    | .null => PyVal.obj "None"
    | _ => PyVal.obj "object")

/-- Outcome of the external `bjobs -o all -json <id>` invocation:
the process either succeeds and its stdout parses as JSON, succeeds with
stdout that fails `json.loads` (whose exception text is recorded), or
exits nonzero, raising `CalledProcessError` with the captured stdout. -/
inductive BjobsOutcome where
  | ok (body : Json)
  | parseError (msg : String)
  | processError (stdout : String)

/-- `Job.check_status`, lines 26-35 of `lsf_runner.py`: on success the
STAT field of the first record; `except CalledProcessError as e: return
e.stdout` (a bytes object); `except Exception as e: return
f'Exception: {e}'`. -/
def Job.check_status : BjobsOutcome → PyVal
  | .ok body =>
    match extractStat body with
    | .ok v => v
    | .error msg => .str ("Exception: " ++ msg)
  | .parseError msg => .str ("Exception: " ++ msg)
  | .processError stdout => .bytes stdout

/-- The ASCII digit character of a single decimal digit. -/
def digitChar (d : Nat) : Char :=
  match d with
  | 0 => '0' | 1 => '1' | 2 => '2' | 3 => '3' | 4 => '4'
  | 5 => '5' | 6 => '6' | 7 => '7' | 8 => '8' | _ => '9'

/-- Fuel-bounded base-10 digit expansion, most significant digit first;
structurally recursive so that it evaluates inside the kernel. -/
def natDigitsGo : Nat → Nat → List Char
  | 0, _ => []
  | fuel + 1, n =>
    if n < 10 then [digitChar n]
    else natDigitsGo fuel (n / 10) ++ [digitChar (n % 10)]

/-- The decimal digits of a natural number, most significant first, as
produced by Python `str(n)` for `n >= 0`. -/
def natDigits (n : Nat) : List Char := natDigitsGo (n + 1) n

/-- The numeric value of an ASCII digit character. -/
def digitVal (c : Char) : Nat := c.toNat - 48

/-- Python `int(s)` on a string of decimal digits. -/
def digitsToNat (l : List Char) : Nat :=
  l.foldl (fun a c => 10 * a + digitVal c) 0

/-- Python `str` of an `int`, covering the negative case. -/
def intRepr : Int → String
  | Int.ofNat n => String.mk (natDigits n)
  | Int.negSucc n => String.mk ('-' :: natDigits (n + 1))

theorem digitChar_isDigit (d : Nat) : (digitChar d).isDigit = true := by
  unfold digitChar
  split <;> decide

theorem digitVal_digitChar (d : Nat) (h : d < 10) : digitVal (digitChar d) = d := by
  interval_cases d <;> rfl

theorem natDigitsGo_spec : ∀ fuel n, n < fuel →
    natDigitsGo fuel n ≠ [] ∧ (∀ c ∈ natDigitsGo fuel n, c.isDigit = true) ∧
      digitsToNat (natDigitsGo fuel n) = n := by
  intro fuel
  induction fuel with
  | zero => intro n h; omega
  | succ fuel ih =>
    intro n h
    by_cases h10 : n < 10
    · refine ⟨by simp [natDigitsGo, h10], ?_, ?_⟩
      · intro c hc
        simp [natDigitsGo, h10] at hc
        subst hc
        exact digitChar_isDigit n
      · simp only [natDigitsGo, if_pos h10]
        simp [digitsToNat, digitVal_digitChar n h10]
    · have hlt : n / 10 < fuel := by
        have hdiv : n / 10 < n := Nat.div_lt_self (by omega) (by omega)
        omega
      obtain ⟨hne, hdig, hval⟩ := ih (n / 10) hlt
      refine ⟨by simp [natDigitsGo, h10], ?_, ?_⟩
      · intro c hc
        simp only [natDigitsGo, if_neg h10] at hc
        rcases List.mem_append.mp hc with h1 | h2
        · exact hdig c h1
        · simp at h2
          subst h2
          exact digitChar_isDigit _
      · simp only [natDigitsGo, if_neg h10]
        simp only [digitsToNat, List.foldl_append] at hval ⊢
        rw [hval]
        simp only [List.foldl_cons, List.foldl_nil]
        rw [digitVal_digitChar _ (Nat.mod_lt _ (by omega))]
        omega

theorem natDigits_ne_nil (n : Nat) : natDigits n ≠ [] :=
  (natDigitsGo_spec (n + 1) n (by omega)).1

theorem natDigits_isDigit (n : Nat) : ∀ c ∈ natDigits n, c.isDigit = true :=
  (natDigitsGo_spec (n + 1) n (by omega)).2.1

theorem digitsToNat_natDigits (n : Nat) : digitsToNat (natDigits n) = n :=
  (natDigitsGo_spec (n + 1) n (by omega)).2.2

/-- The scan performed by `re.search(r'<(\d+)>', s)`: at each position, a
match requires a `<`, then the (maximal, since a digit run cannot stop
early before a non-digit) run of digits, which must be non-empty and be
followed by `>`; the leftmost match wins and its digit run is returned. -/
def scanBracket : List Char → Option (List Char)
  | [] => none
  | c :: rest =>
    let ds := rest.takeWhile Char.isDigit
    if c = '<' ∧ ds ≠ [] ∧ (rest.dropWhile Char.isDigit).head? = some '>' then some ds
    else scanBracket rest

/-- `retrieve_bsub_job_id`, lines 173-198 of `lsf_runner.py`:
`re.search(r'<(\d+)>', s)`, returning `int(match.group(1))` on a match
and raising `ValueError(f'No job ID found in string [{s}]')` otherwise. -/
def retrieve_bsub_job_id (s : String) : Except String Nat :=
  match scanBracket s.data with
  | some ds => Except.ok (digitsToNat ds)
  | none => Except.error ("No job ID found in string [" ++ s ++ "]")

/-- The text contains a run of ASCII digits enclosed in angle brackets. -/
def HasBracketRun (l : List Char) : Prop :=
  ∃ pre ds post, l = pre ++ '<' :: (ds ++ '>' :: post) ∧ ds ≠ [] ∧ ∀ c ∈ ds, c.isDigit = true

theorem takeWhile_digits_gt (ds post : List Char) (h : ∀ c ∈ ds, c.isDigit = true) :
    (ds ++ '>' :: post).takeWhile Char.isDigit = ds ∧
    (ds ++ '>' :: post).dropWhile Char.isDigit = '>' :: post := by
  induction ds with
  | nil =>
    refine ⟨?_, ?_⟩
    · rw [List.nil_append, List.takeWhile_cons_of_neg (by decide)]
    · rw [List.nil_append, List.dropWhile_cons_of_neg (by decide)]
  | cons c ds ih =>
    have hc : c.isDigit = true := h c (by simp)
    have ih2 := ih fun x hx => h x (by simp [hx])
    refine ⟨?_, ?_⟩
    · rw [List.cons_append, List.takeWhile_cons_of_pos hc, ih2.1]
    · rw [List.cons_append, List.dropWhile_cons_of_pos hc, ih2.2]

theorem scanBracket_head (ds post : List Char) (h1 : ds ≠ [])
    (h2 : ∀ c ∈ ds, c.isDigit = true) :
    scanBracket ('<' :: (ds ++ '>' :: post)) = some ds := by
  have htw := takeWhile_digits_gt ds post h2
  simp [scanBracket, htw.1, htw.2, h1]

theorem scanBracket_sound : ∀ l ds, scanBracket l = some ds → HasBracketRun l := by
  intro l
  induction l with
  | nil => intro ds h; simp [scanBracket] at h
  | cons c rest ih =>
    intro ds h
    simp only [scanBracket] at h
    split at h
    · next hcond =>
      obtain ⟨hc, hne, hgt⟩ := hcond
      obtain ⟨g, hg⟩ : ∃ g, rest.dropWhile Char.isDigit = '>' :: g := by
        cases hdw : rest.dropWhile Char.isDigit with
        | nil => rw [hdw] at hgt; simp at hgt
        | cons x g =>
          rw [hdw] at hgt
          simp at hgt
          exact ⟨g, by rw [hgt]⟩
      refine ⟨[], rest.takeWhile Char.isDigit, g, ?_, hne, ?_⟩
      · subst hc
        injection h with h
        subst h
        simp only [List.nil_append]
        congr 1
        rw [← hg, List.takeWhile_append_dropWhile]
      · intro x hx
        injection h with h
        subst h
        exact List.mem_takeWhile_imp hx
    · obtain ⟨pre, ds2, post, heq, hne, hdig⟩ := ih ds h
      exact ⟨c :: pre, ds2, post, by rw [heq, List.cons_append], hne, hdig⟩

theorem hasBracketRun_scan (l : List Char) (h : HasBracketRun l) :
    (scanBracket l).isSome = true := by
  obtain ⟨pre, ds, post, heq, hne, hdig⟩ := h
  subst heq
  induction pre with
  | nil =>
    rw [List.nil_append, scanBracket_head ds post hne hdig]
    rfl
  | cons c pre ih =>
    rw [List.cons_append]
    simp only [scanBracket]
    split
    · rfl
    · exact ih

theorem not_hasBracketRun_of_scan_none (l : List Char) (h : scanBracket l = none) :
    ¬ HasBracketRun l := by
  intro hrun
  have := hasBracketRun_scan l hrun
  rw [h] at this
  exact absurd this (by simp)

theorem takeWhile_append_lt (a l : List Char) :
    (a ++ '<' :: l).takeWhile Char.isDigit = a.takeWhile Char.isDigit := by
  induction a with
  | nil => rw [List.nil_append, List.takeWhile_cons_of_neg (by decide), List.takeWhile_nil]
  | cons c a ih =>
    by_cases hc : c.isDigit = true
    · rw [List.cons_append, List.takeWhile_cons_of_pos hc, List.takeWhile_cons_of_pos hc, ih]
    · rw [List.cons_append, List.takeWhile_cons_of_neg hc, List.takeWhile_cons_of_neg hc]

theorem dropWhile_append_lt (a l : List Char) :
    (a ++ '<' :: l).dropWhile Char.isDigit = a.dropWhile Char.isDigit ++ '<' :: l := by
  induction a with
  | nil => rw [List.nil_append, List.dropWhile_cons_of_neg (by decide), List.dropWhile_nil,
      List.nil_append]
  | cons c a ih =>
    by_cases hc : c.isDigit = true
    · rw [List.cons_append, List.dropWhile_cons_of_pos hc, List.dropWhile_cons_of_pos hc, ih]
    · rw [List.cons_append, List.dropWhile_cons_of_neg hc, List.dropWhile_cons_of_neg hc,
        List.cons_append]

theorem scanBracket_append_lt : ∀ pre l, scanBracket pre = none →
    scanBracket (pre ++ '<' :: l) = scanBracket ('<' :: l) := by
  intro pre
  induction pre with
  | nil => intro l _; rfl
  | cons c pre ih =>
    intro l hnone
    simp only [scanBracket] at hnone
    split at hnone
    · exact absurd hnone (by simp)
    · next hcond_orig =>
      rw [List.cons_append]
      simp only [scanBracket]
      split
      · next hcond =>
        exfalso
        apply hcond_orig
        rw [takeWhile_append_lt, dropWhile_append_lt] at hcond
        obtain ⟨h1, h2, h3⟩ := hcond
        refine ⟨h1, h2, ?_⟩
        cases hdw : pre.dropWhile Char.isDigit with
        | nil =>
          rw [hdw, List.nil_append] at h3
          simp at h3
        | cons x g =>
          rw [hdw, List.cons_append] at h3
          simpa using h3
      · rw [ih l hnone]
        simp only [scanBracket]

/-- `bool_to_str`, line 77 of `lsf_runner.py`. -/
def bool_to_str (b : Bool) : String := if b then "yes" else "no"

/-- The `GpuParameters` dataclass, lines 81-87 of `lsf_runner.py`
(defaults: `number=1`, `mode=None`, `job_exclusive=True`,
`memory_required=None`, `model=None`). -/
structure GpuParameters where
  number : Int := 1
  mode : Option String := none
  job_exclusive : Bool := true
  memory_required : Option String := none
  model : Option String := none

/-- `GpuParameters.__str__`, lines 89-100 of `lsf_runner.py`: the list of
clause strings built by the successive appends, joined and wrapped in one
pair of double quotes. -/
def GpuParameters.render (g : GpuParameters) : String :=
  let parameter_list := ["num=" ++ intRepr g.number]
  let parameter_list := parameter_list ++
    (match g.mode with
     | some m => [":mode=" ++ m]
     | none => [])
  let parameter_list := parameter_list ++ [":j_exclusive=" ++ bool_to_str g.job_exclusive]
  let parameter_list := parameter_list ++
    (match g.model with
     | some m => [":gmodel=" ++ m]
     | none => [])
  let parameter_list := parameter_list ++
    (match g.memory_required with
     | some m => [":gmem=" ++ m]
     | none => [])
  String.join (["\""] ++ parameter_list ++ ["\""])

/-- `span_parameters`, line 103 of `lsf_runner.py`. -/
def span_parameters (hosts : Int) : String := "hosts=" ++ intRepr hosts

/-- `resource_usage`, line 107 of `lsf_runner.py`. -/
def resource_usage (memory : String) : String := "mem=" ++ memory

/-- `resource_requirements`, lines 111-148 of `lsf_runner.py`: the four
optional bracketed predicates appended in order and joined by
`' '.join`. -/
def resource_requirements (select span ru affinity : Option String) : String :=
  let parameter_list : List String := []
  let parameter_list := parameter_list ++
    (match select with
     | some s => ["select[" ++ s ++ "]"]
     | none => [])
  let parameter_list := parameter_list ++
    (match span with
     | some s => ["span[" ++ s ++ "]"]
     | none => [])
  let parameter_list := parameter_list ++
    (match ru with
     | some s => ["rusage[" ++ s ++ "]"]
     | none => [])
  let parameter_list := parameter_list ++
    (match affinity with
     | some s => ["affinity[" ++ s ++ "]"]
     | none => [])
  String.intercalate " " parameter_list

/-- `output_file_string`, lines 151-170 of `lsf_runner.py`, as a pure
string transform (the log-folder creation is an external side effect):
`os.path.join(log_folder, f'{job_name.replace("/", "_")}-%J.out')`,
where the single-character `str.replace` is a character-wise map. -/
def output_file_string (job_name : String) (log_folder : String) : String :=
  log_folder ++ "/" ++
    String.mk (job_name.data.map fun c => if c = '/' then '_' else c) ++ "-%J.out"

/-- The parameters of `run_job`, lines 219-232 of `lsf_runner.py`, with
the same defaults. -/
structure JobDescription where
  command : String
  tasks_number : Int := 1
  job_name : String := "job"
  queue : Option String := none
  use_gpu : Bool := false
  gpu_parameters : Option GpuParameters := none
  resource_requrements : Option String := none
  hosts : Option String := none
  rerunnable : Bool := false
  output_file : Option String := none

/-- The output file actually used by `run_job`: the caller-supplied one,
or `output_file_string(job_name)` with the default log folder. -/
def effectiveOutputFile (jd : JobDescription) : String :=
  match jd.output_file with
  | none => output_file_string jd.job_name "logs"
  | some f => f

/-- The command vector built by `run_job`, lines 267-291 of
`lsf_runner.py`: the successive `bsub_arguments +=` appends followed by
`['bsub'] + bsub_arguments + [command]`.  The source performs no
validation of any field; the function is total. -/
def run_job_bsub (jd : JobDescription) : List String :=
  let bsub_arguments := ["-J", jd.job_name, "-o", effectiveOutputFile jd,
    "-n", intRepr jd.tasks_number]
  let bsub_arguments := bsub_arguments ++
    (match jd.queue with
     | some q => ["-q", q]
     | none => [])
  let bsub_arguments := bsub_arguments ++
    (match jd.resource_requrements with
     | some r => ["-R", r]
     | none => [])
  let bsub_arguments := bsub_arguments ++
    (if jd.use_gpu then
      ["-gpu",
        match jd.gpu_parameters with
        | some g => g.render
        | none => "-"]
     else [])
  let bsub_arguments := bsub_arguments ++
    (match jd.hosts with
     | some h => ["-m", h]
     | none => [])
  let bsub_arguments := bsub_arguments ++ (if jd.rerunnable then [] else ["-rn"])
  ["bsub"] ++ bsub_arguments ++ [jd.command]

/-- Written from the spec, section 4.2: job-name flag, output-file flag,
task-count flag, then optional queue, resource-requirement, GPU
(rendered sub-spec when parameters are supplied, placeholder `-`
otherwise), host-constraint flags, the non-rerunnable flag unless
rerunnable is requested, and the command as the final positional
argument. -/
def argVectorSpec (jd : JobDescription) : List String :=
  ["-J", jd.job_name]
  ++ ["-o", effectiveOutputFile jd]
  ++ ["-n", intRepr jd.tasks_number]
  ++ (jd.queue.elim [] fun q => ["-q", q])
  ++ (jd.resource_requrements.elim [] fun r => ["-R", r])
  ++ (if jd.use_gpu then ["-gpu", (jd.gpu_parameters.map GpuParameters.render).getD "-"] else [])
  ++ (jd.hosts.elim [] fun h => ["-m", h])
  ++ (if jd.rerunnable then [] else ["-rn"])
  ++ [jd.command]

theorem run_job_bsub_eq (jd : JobDescription) :
    run_job_bsub jd = ["bsub"] ++ argVectorSpec jd := by
  obtain ⟨cmd, t, name, q, gpu, gp, rr, hosts, rer, out⟩ := jd
  simp only [run_job_bsub, argVectorSpec]
  cases q <;> cases gpu <;> cases gp <;> cases rr <;> cases hosts <;> cases rer <;>
    simp [Option.elim, Option.map, Option.getD]

/-- A `Job` handle, line 11 of `lsf_runner.py`: owns the scheduler-assigned
identifier. -/
structure Job where
  id : Nat
deriving DecidableEq, Repr

/-- The scripted outcome of one submission attempt as seen by
`__run_bsub_command`: the job id recovered from the acknowledgement, and
the status `job.wait_complete()` would return for that job. -/
structure Attempt where
  job_id : Nat
  wait_status : PyVal
deriving DecidableEq, Repr

/-- `__run_bsub_command`, lines 201-216 of `lsf_runner.py`, driven by the
script of submission attempts (one consumed per `bsub` invocation).
Returns the final `Job` together with the list of argument vectors
executed, in order; `none` when the script is exhausted.  With
`ensure_completion` the code reruns `__run_bsub_command(bsub_command,
True)` whenever `wait_complete` returned `'EXIT'`. -/
def run_bsub_command : List String → Bool → List Attempt → Option (Job × List (List String))
  | _, _, [] => none
  | bsub_command, ensure_completion, a :: rest =>
    if ensure_completion && PyVal.eqStr a.wait_status "EXIT" then
      (run_bsub_command bsub_command true rest).map fun p =>
        (p.1, bsub_command :: p.2)
    else
      some (Job.mk a.job_id, [bsub_command])

/-- Claim C1: in `Job.wait_complete` an EXIT observed by the polling loop
is never returned immediately: the poller sleeps the exit grace period and
issues exactly one re-check; if the re-check still yields EXIT, EXIT is
returned, and if the re-check yields any other status the entire wait
protocol restarts from the top (a fresh `wait_complete` run on the
remaining observations), so the initial unconfirmed EXIT observation is
never the returned result. -/
theorem wait_complete_exit_grace_recheck (rest : List PyVal)
    (check_period exit_wait_period : Rat) :
    Job.waitLoop (.str "EXIT" :: rest) check_period exit_wait_period =
      match rest with
      | [] => none
      | st2 :: rest2 =>
        if PyVal.eqStr st2 "EXIT" then
          some (st2, [.query (.str "EXIT"), .sleep exit_wait_period, .query st2])
        else
          (Job.wait_complete rest2 10 30).map fun p =>
            (p.1, .query (.str "EXIT") :: .sleep exit_wait_period :: .query st2 :: p.2) := by
  cases rest with
  | nil => simp [Job.waitLoop, PyVal.eqStr]
  | cons st2 rest2 =>
    simp only [Job.waitLoop, PyVal.eqStr, Job.wait_complete]
    norm_num
    split
    · rfl
    · cases Job.waitLoop rest2 10 30 <;> simp

/-- Claim C2: for the observation sequence [PEND, RUN, DONE],
`Job.wait_complete` returns DONE after exactly three status queries, with
a sleep of the configured check interval before the first query and after
each of the two non-terminal observations, i.e. a sleep of the configured
interval precedes every query. -/
theorem wait_complete_pend_run_done (check_period exit_wait_period : Rat) :
    Job.wait_complete [.str "PEND", .str "RUN", .str "DONE"] check_period exit_wait_period =
      some (.str "DONE",
        [.sleep check_period, .query (.str "PEND"),
         .sleep check_period, .query (.str "RUN"),
         .sleep check_period, .query (.str "DONE")]) := by
  simp [Job.wait_complete, Job.waitLoop, PyVal.eqStr]

/-- Claim C10: when the grace-period re-check observes a status other than
EXIT, `Job.wait_complete` restarts by calling itself with no arguments, so
the restarted wait runs with the default periods (check period 10, exit
grace period 30) and silently discards the caller-supplied `check_period`
and `exit_wait_period` values. -/
theorem wait_complete_restart_uses_defaults (st2 : PyVal) (rest2 : List PyVal)
    (check_period exit_wait_period : Rat) (h : PyVal.eqStr st2 "EXIT" = false) :
    Job.waitLoop (.str "EXIT" :: st2 :: rest2) check_period exit_wait_period =
      (Job.wait_complete rest2 10 30).map fun p =>
        (p.1, .query (.str "EXIT") :: .sleep exit_wait_period :: .query st2 :: p.2) := by
  simp only [Job.waitLoop]
  rw [h]
  simp [PyVal.eqStr, Job.wait_complete]
  cases Job.waitLoop rest2 10 30 <;> simp

/-- Witness for C10 at concrete caller-supplied periods 1 and 2: the
restart runs with periods 10 and 30. -/
theorem wait_complete_restart_uses_defaults_witness :
    PyVal.eqStr (.str "RUN") "EXIT" = false
  ∧ Job.waitLoop [.str "EXIT", .str "RUN", .str "DONE"] 1 2 =
      (Job.wait_complete [.str "DONE"] 10 30).map fun p =>
        (p.1, .query (.str "EXIT") :: .sleep 2 :: .query (.str "RUN") :: p.2) :=
  ⟨rfl, wait_complete_restart_uses_defaults (.str "RUN") [.str "DONE"] 1 2 rfl⟩

theorem string_len_ge_ne (msg t : String) (hlen : t.length < 11) :
    ("Exception: " ++ msg) ≠ t := by
  intro heq
  have hl := congrArg String.length heq
  rw [String.length_append] at hl
  have h11 : ("Exception: " : String).length = 11 := rfl
  omega

/-- Claim C3: every failure of a status query - the external bjobs process
failing, or its output missing or unparseable as the expected structure -
makes `Job.check_status` return a value carrying the failure text (the
raw stdout bytes for a process failure, an Exception-prefixed string for
a parse or structure failure) rather than raising; the returned value
never compares equal to DONE or EXIT, so polling continues. -/
theorem check_status_never_raises (stdout msg : String) (body : Json)
    (h : extractStat body = .error msg) :
    Job.check_status (.processError stdout) = .bytes stdout
  ∧ PyVal.eqStr (Job.check_status (.processError stdout)) "DONE" = false
  ∧ PyVal.eqStr (Job.check_status (.processError stdout)) "EXIT" = false
  ∧ Job.check_status (.parseError msg) = .str ("Exception: " ++ msg)
  ∧ Job.check_status (.ok body) = .str ("Exception: " ++ msg)
  ∧ PyVal.eqStr (Job.check_status (.ok body)) "DONE" = false
  ∧ PyVal.eqStr (Job.check_status (.ok body)) "EXIT" = false := by
  have hok : Job.check_status (.ok body) = .str ("Exception: " ++ msg) := by
    simp [Job.check_status, h]
  refine ⟨rfl, rfl, rfl, rfl, hok, ?_, ?_⟩ <;>
    rw [hok] <;>
    simp [PyVal.eqStr] <;>
    exact string_len_ge_ne msg _ (by decide)

/-- Witness for C3: a body whose structure lookup fails (no RECORDS
key), next to a process failure with captured stdout. -/
theorem check_status_never_raises_witness :
    extractStat (Json.obj []) = .error "KeyError: RECORDS"
  ∧ (Job.check_status (.processError "err") = .bytes "err"
  ∧ PyVal.eqStr (Job.check_status (.processError "err")) "DONE" = false
  ∧ PyVal.eqStr (Job.check_status (.processError "err")) "EXIT" = false
  ∧ Job.check_status (.parseError "KeyError: RECORDS") =
      .str ("Exception: " ++ "KeyError: RECORDS")
  ∧ Job.check_status (.ok (Json.obj [])) = .str ("Exception: " ++ "KeyError: RECORDS")
  ∧ PyVal.eqStr (Job.check_status (.ok (Json.obj []))) "DONE" = false
  ∧ PyVal.eqStr (Job.check_status (.ok (Json.obj []))) "EXIT" = false) :=
  ⟨rfl, check_status_never_raises "err" "KeyError: RECORDS" (Json.obj []) rfl⟩

/-- Claim C4 counterexample: the text `<1><2>` contains the substring
`<2>` (it is the concatenation of `<1>` and `<2>`), yet
`retrieve_bsub_job_id` returns 1, not 2: extraction returns the value of
the leftmost bracketed digit run, not of an arbitrary contained `<N>`. -/
theorem retrieve_bsub_job_id_leftmost_cex :
    ("<1><2>" : String) = "<1>" ++ "<2>"
  ∧ retrieve_bsub_job_id "<1><2>" = .ok 1
  ∧ (Except.ok 1 : Except String Nat) ≠ Except.ok 2 := by
  refine ⟨rfl, rfl, ?_⟩
  intro heq
  injection heq with heq
  omega

/-- Claim C4 amended: extraction returns the value of the leftmost
bracketed digit run: for every N >= 0, extracting from a text of the form
`pre <N> post` in which the prefix `pre` itself contains no bracketed
digit run returns N; and for every text containing no run of ASCII digits
enclosed in angle brackets anywhere, extraction fails with the ValueError
whose message carries the offending text verbatim, never returning a
placeholder identifier. -/
theorem retrieve_bsub_job_id_spec (n : Nat) (pre post s : String)
    (hpre : ¬ HasBracketRun pre.data) (hs : ¬ HasBracketRun s.data) :
    retrieve_bsub_job_id (pre ++ "<" ++ String.mk (natDigits n) ++ ">" ++ post) = .ok n
  ∧ retrieve_bsub_job_id s = .error ("No job ID found in string [" ++ s ++ "]") := by
  have scanOfNot : ∀ t : String, ¬ HasBracketRun t.data → scanBracket t.data = none := by
    intro t ht
    cases hsc : scanBracket t.data with
    | none => rfl
    | some ds => exact absurd (scanBracket_sound _ ds hsc) ht
  constructor
  · have hdata : (pre ++ "<" ++ String.mk (natDigits n) ++ ">" ++ post).data =
        pre.data ++ '<' :: (natDigits n ++ '>' :: post.data) := by
      show pre.data ++ ['<'] ++ natDigits n ++ ['>'] ++ post.data = _
      simp
    simp only [retrieve_bsub_job_id, hdata,
      scanBracket_append_lt pre.data _ (scanOfNot pre hpre),
      scanBracket_head (natDigits n) post.data (natDigits_ne_nil n) (natDigits_isDigit n),
      digitsToNat_natDigits]
  · simp only [retrieve_bsub_job_id, scanOfNot s hs]

/-- Witness for the amended C4 at N = 42 with a realistic
acknowledgement prefix, and at a text with no bracketed digits. -/
theorem retrieve_bsub_job_id_spec_witness :
    ¬ HasBracketRun ("Job " : String).data
  ∧ ¬ HasBracketRun ("oops" : String).data
  ∧ (retrieve_bsub_job_id ("Job " ++ "<" ++ String.mk (natDigits 42) ++ ">" ++ " ok") = .ok 42
  ∧ retrieve_bsub_job_id "oops" = .error ("No job ID found in string [" ++ "oops" ++ "]")) :=
  ⟨not_hasBracketRun_of_scan_none _ rfl, not_hasBracketRun_of_scan_none _ rfl,
   retrieve_bsub_job_id_spec 42 "Job " " ok" "oops"
     (not_hasBracketRun_of_scan_none _ rfl) (not_hasBracketRun_of_scan_none _ rfl)⟩

/-- Claim C5: for every job description, `run_job` builds the submission
argument vector in the fixed order job-name flag, output-file flag,
task-count flag, then - each emitted exactly when its optional field is
set - queue flag, resource-requirement flag, GPU flag (the rendered
sub-spec when GPU parameters are supplied, the placeholder `-` when GPU
is merely requested), host-constraint flag, and the non-rerunnable flag
unless rerunnable is requested, with the literal command string as the
final positional argument; no flag is emitted with a missing value. -/
theorem run_job_argument_vector (jd : JobDescription) :
    run_job_bsub jd = ["bsub"] ++ argVectorSpec jd :=
  run_job_bsub_eq jd

/-- Claim C6 counterexample: at task count 0, `run_job` does not fail
fast with any error: no validation exists in the code, and the complete
submission vector (with `-n 0`) is built and handed to the external bsub
invocation. -/
theorem run_job_nonpositive_tasks_cex :
    run_job_bsub { command := "echo hi", tasks_number := 0 } =
      ["bsub", "-J", "job", "-o", "logs/job-%J.out", "-n", "0", "-rn", "echo hi"] := rfl

/-- Claim C6 amended: `run_job` performs no task-count validation: for a
job description with non-positive task count the submission vector is
still built in the normal shape, with the non-positive count rendered in
decimal directly after the `-n` flag, and submission proceeds to the
external invocation instead of failing fast. -/
theorem run_job_no_task_validation (jd : JobDescription) (_h : jd.tasks_number ≤ 0) :
    run_job_bsub jd = ["bsub"] ++ argVectorSpec jd
  ∧ (run_job_bsub jd).get? 5 = some "-n"
  ∧ (run_job_bsub jd).get? 6 = some (intRepr jd.tasks_number) := by
  refine ⟨run_job_bsub_eq jd, ?_, ?_⟩ <;>
    rw [run_job_bsub_eq jd] <;>
    simp [argVectorSpec]

/-- Witness for the amended C6 at task count 0. -/
theorem run_job_no_task_validation_witness :
    ({ command := "echo hi", tasks_number := 0 } : JobDescription).tasks_number ≤ 0
  ∧ (run_job_bsub { command := "echo hi", tasks_number := 0 } =
      ["bsub"] ++ argVectorSpec { command := "echo hi", tasks_number := 0 }
  ∧ (run_job_bsub { command := "echo hi", tasks_number := 0 }).get? 5 = some "-n"
  ∧ (run_job_bsub { command := "echo hi", tasks_number := 0 }).get? 6 =
      some (intRepr ({ command := "echo hi", tasks_number := 0 } : JobDescription).tasks_number)) :=
  ⟨by decide, run_job_no_task_validation { command := "echo hi", tasks_number := 0 } (by decide)⟩

/-- Claim C7: under `ensure_completion`, whenever the wait protocol
returns EXIT the orchestrator re-invokes the entire submission with an
argument vector identical to the original one and repeats, with no
attempt cap: for any number of consecutive EXIT attempts followed by a
non-EXIT (DONE) wait result, the executed submissions are exactly that
many identical copies of the original vector and the returned handle is
the job of the first attempt whose wait was not EXIT. -/
theorem ensure_completion_retries (cmd : List String) (exits : List Attempt)
    (a : Attempt) (rest : List Attempt)
    (hex : ∀ e ∈ exits, PyVal.eqStr e.wait_status "EXIT" = true)
    (ha : PyVal.eqStr a.wait_status "EXIT" = false) :
    run_bsub_command cmd true (exits ++ a :: rest) =
      some (Job.mk a.job_id, List.replicate (exits.length + 1) cmd) := by
  induction exits with
  | nil => simp [run_bsub_command, ha]
  | cons e exits ih =>
    have he := hex e (by simp)
    have ihr := ih fun x hx => hex x (by simp [hx])
    simp [run_bsub_command, he, ihr, List.replicate_succ]

/-- Witness for C7: two EXIT attempts then a DONE attempt; three
identical submissions; the handle is job 9. -/
theorem ensure_completion_retries_witness :
    (∀ e ∈ [Attempt.mk 7 (.str "EXIT"), Attempt.mk 8 (.str "EXIT")],
        PyVal.eqStr e.wait_status "EXIT" = true)
  ∧ PyVal.eqStr (Attempt.mk 9 (.str "DONE")).wait_status "EXIT" = false
  ∧ run_bsub_command ["bsub", "-n", "1", "c"] true
      ([Attempt.mk 7 (.str "EXIT"), Attempt.mk 8 (.str "EXIT")] ++ Attempt.mk 9 (.str "DONE") :: []) =
      some (Job.mk 9, List.replicate (2 + 1) ["bsub", "-n", "1", "c"]) :=
  ⟨by decide, rfl,
   ensure_completion_retries ["bsub", "-n", "1", "c"]
     [Attempt.mk 7 (.str "EXIT"), Attempt.mk 8 (.str "EXIT")]
     (Attempt.mk 9 (.str "DONE")) [] (by decide) rfl⟩

/-- Claim C8: `resource_requirements` renders each present field wrapped
in its own bracketed tag, omits the tag exactly when the field is absent,
always orders the tags select, span, rusage, affinity, and joins them
with single spaces leaving no stray separators - in particular the empty
string when all fields are absent. -/
theorem resource_requirements_rendering :
    (∀ select span ru affinity : Option String,
      resource_requirements select span ru affinity =
        String.intercalate " " (List.filterMap id
          [select.map fun s => "select[" ++ s ++ "]",
           span.map fun s => "span[" ++ s ++ "]",
           ru.map fun s => "rusage[" ++ s ++ "]",
           affinity.map fun s => "affinity[" ++ s ++ "]"]))
  ∧ resource_requirements none none none none = "" := by
  refine ⟨?_, rfl⟩
  intro select span ru affinity
  cases select <;> cases span <;> cases ru <;> cases affinity <;> rfl

/-- Claim C9: `GpuParameters` rendering produces the count first followed
by colon-prefixed sub-clauses in the fixed order mode, exclusivity,
model, memory - each optional clause present exactly when its field is
set, booleans rendered as the literal tokens yes/no - all wrapped in one
pair of double quotes; with only a count set the result contains exactly
the count and the exclusivity clause and no other clause markers. -/
theorem gpu_parameters_rendering :
    (∀ g : GpuParameters,
      g.render = "\"" ++ ("num=" ++ intRepr g.number)
        ++ (g.mode.elim "" fun m => ":mode=" ++ m)
        ++ (":j_exclusive=" ++ bool_to_str g.job_exclusive)
        ++ (g.model.elim "" fun m => ":gmodel=" ++ m)
        ++ (g.memory_required.elim "" fun m => ":gmem=" ++ m)
        ++ "\"")
  ∧ (∀ n : Int,
      GpuParameters.render { number := n } = "\"num=" ++ intRepr n ++ ":j_exclusive=yes\"") := by
  constructor
  · intro g
    obtain ⟨num, mode, excl, mem, model⟩ := g
    apply String.ext
    cases mode <;> cases model <;> cases mem <;>
      simp [GpuParameters.render, String.join, Option.elim, String.data_append]
  · intro n
    apply String.ext
    simp [GpuParameters.render, String.join, bool_to_str, String.data_append]
